import Mathlib

/-!
# Proxmox exporter: label derivation, publishers and the scheduler cycle

A shallow embedding of `main.go`.  The three `fetchAndUpdate…` functions and the
body of the ticker loop are written as state-passing functions over an explicit
metric registry.  The external `pvesh` command and `json.Unmarshal` are inputs
of the model (`Env`).

Conventions of the embedding:

* a Go `string` is a Lean `String`; JSON-decoded strings are valid UTF-8, for
  which bytewise comparison and code-point comparison coincide;
* a Go `int64` is an `Int`;
* a finite `float64` is the rational number it denotes (`Float64`), and the
  conversion `float64(x)` of an `int64` rounds to 53 significant bits,
  ties to even.
-/

namespace ProxmoxExporter

/-! ## Library functions used by the publishers -/

namespace strings

/-- Cut a character sequence at every occurrence of `sep`.  The result always has
one more element than there are separators; in particular the empty input gives
one empty part. -/
def splitChars (sep : Char) : List Char → List (List Char)
  | [] => [[]]
  | c :: cs =>
    if c = sep then [] :: splitChars sep cs
    else
      match splitChars sep cs with
      | [] => [[c]]
      | p :: ps => (c :: p) :: ps

/-- Go `strings.Split(s, sep)` for a one-character separator. -/
def Split (s : String) (sep : Char) : List String :=
  (splitChars sep s.data).map String.mk

/-- Go `strings.Join(elems, sep)`. -/
def Join : List String → String → String
  | [], _ => ""
  | [a], _ => a
  | a :: b :: rest, sep => a ++ sep ++ Join (b :: rest) sep

end strings

namespace sort

/-- Go `sort.Strings(xs)`: `xs` in increasing order of the string comparison `<`
(lexicographic on the characters).  The order is total and equal strings are
indistinguishable, so the sorted list does not depend on the algorithm. -/
def Strings (xs : List String) : List String :=
  xs.insertionSort (fun a b => a.data ≤ b.data)

end sort

namespace fmt

/-- Go `fmt.Sprintf("%d", n)` for an `int64`: decimal digits, with a leading `-`
for a negative number. -/
def formatInt (n : Int) : String :=
  match n with
  | Int.ofNat m => Nat.repr m
  | Int.negSucc m => "-" ++ Nat.repr (m + 1)

end fmt

/-- A finite `float64`, identified with the rational number it denotes. -/
abbrev Float64 := ℚ

/-- Go conversion `float64(n)` of an `int64`: `n` rounded to 53 significant bits,
ties to even.  `e` is the number of low bits that do not fit. -/
def float64 (n : Int) : Float64 :=
  let a := n.natAbs
  let e := Nat.log2 a + 1 - 53
  let q := a / 2 ^ e
  let r := a % 2 ^ e
  let m := if 2 ^ e < 2 * r ∨ (2 * r = 2 ^ e ∧ q % 2 = 1) then q + 1 else q
  if n < 0 then -((m * 2 ^ e : Nat) : ℚ) else ((m * 2 ^ e : Nat) : ℚ)

/-! ## Records -/

/-- Go `type VM struct`. -/
structure VM where
  Cpu : Float64 := 0
  Disk : Int := 0
  DiskRead : Int := 0
  DiskWrite : Int := 0
  ID : String := ""
  MaxCpu : Int := 0
  MaxDisk : Int := 0
  MaxMem : Int := 0
  Mem : Int := 0
  Name : String := ""
  NetIn : Int := 0
  NetOut : Int := 0
  Node : String := ""
  Status : String := ""
  Template : Int := 0
  Type_ : String := ""
  Uptime : Int := 0
  VMID : Int := 0
  deriving DecidableEq

/-- Go `type NODE struct`. -/
structure NODE where
  CgroupMode : Int := 0
  Cpu : Float64 := 0
  Disk : Int := 0
  ID : String := ""
  Level : String := ""
  MaxCpu : Int := 0
  MaxDisk : Int := 0
  MaxMem : Int := 0
  Mem : Int := 0
  Node : String := ""
  Status : String := ""
  Type_ : String := ""
  Uptime : Int := 0
  deriving DecidableEq

/-- Go `type STORAGE struct`. -/
structure STORAGE where
  Content : String := ""
  Disk : Int := 0
  ID : String := ""
  MaxDisk : Int := 0
  Node : String := ""
  PluginType : String := ""
  Shared : Int := 0
  Status : String := ""
  Storage : String := ""
  Type_ : String := ""
  deriving DecidableEq

/-! ## The metric registry -/

/-- The gauge vectors declared in the `var` block. -/
inductive Series where
  | pveResourceCpu
  | pveResourceDisk
  | pveResourceMaxDisk
  | pveResourceDiskRead
  | pveResourceDiskWrite
  | pveResourceMaxCpu
  | pveResourceMaxMem
  | pveResourceMem
  | pveResourceNetIn
  | pveResourceNetOut
  | pveResourceUptime
  | pveResourceStatus
  | pveStorageDisk
  | pveStorageMaxDisk
  | pveStorageStatus
  deriving DecidableEq, Repr

/-- A series of a gauge vector is addressed by the vector and the tuple of label
values. -/
abbrev Key := Series × List String

/-- The registry: the value of every series that exists. -/
abbrev Registry := Key → Option Float64

/-- The registry at process start: no series exists yet. -/
def Registry.empty : Registry := fun _ => none

/-- Go `vec.WithLabelValues(lvs...).Set(v)`: creates the series on first use and
overwrites its value afterwards.  Every call in the source passes as many values
as the vector has label names, and the values are valid UTF-8, so the call does
not panic. -/
def Registry.set (R : Registry) (vec : Series) (lvs : List String) (v : Float64) : Registry :=
  fun k => if k = (vec, lvs) then some v else R k

/-- One `WithLabelValues(...).Set(...)` call. -/
abbrev Write := Key × Float64

/-- Run a sequence of `Set` calls in order. -/
def applyWrites : List Write → Registry → Registry
  | [], R => R
  | w :: ws, R => applyWrites ws (R.set w.1.1 w.1.2 w.2)

/-- Go `for _, x := range xs { body }` where the body performs the calls
`writes x`. -/
def publish {α : Type} (writes : α → List Write) (xs : List α) (R : Registry) : Registry :=
  xs.foldl (fun R x => applyWrites (writes x) R) R

/-! ## Label and value derivation (bodies of the three loops) -/

/-- The local `labelID` of the virtual-machine loop: `fmt.Sprintf("node/%s/%s", vm.Node, vm.ID)`. -/
def vmLabelID (vm : VM) : String := "node/" ++ vm.Node ++ "/" ++ vm.ID

/-- The label values passed to every `WithLabelValues` call of the virtual-machine loop. -/
def vmLabelValues (vm : VM) : List String :=
  let labelID := vmLabelID vm
  let labelVMID := fmt.formatInt vm.VMID
  let labelNode := vm.Node
  let labelTemplate := fmt.formatInt vm.Template
  let labelType := vm.Type_
  [labelID, vm.Name, labelNode, labelTemplate, labelType, labelVMID]

/-- The local `statusValue` of the virtual-machine loop. -/
def vmStatusValue (vm : VM) : Int := if vm.Status = "running" then 1 else 0

/-- The twelve `Set` calls of the virtual-machine loop body, in source order. -/
def vmWrites (vm : VM) : List Write :=
  let lvs := vmLabelValues vm
  [ ((.pveResourceCpu, lvs), vm.Cpu),
    ((.pveResourceDisk, lvs), float64 vm.Disk),
    ((.pveResourceDiskRead, lvs), float64 vm.DiskRead),
    ((.pveResourceDiskWrite, lvs), float64 vm.DiskWrite),
    ((.pveResourceMaxCpu, lvs), float64 vm.MaxCpu),
    ((.pveResourceMaxDisk, lvs), float64 vm.MaxDisk),
    ((.pveResourceMaxMem, lvs), float64 vm.MaxMem),
    ((.pveResourceMem, lvs), float64 vm.Mem),
    ((.pveResourceNetIn, lvs), float64 vm.NetIn),
    ((.pveResourceNetOut, lvs), float64 vm.NetOut),
    ((.pveResourceUptime, lvs), float64 vm.Uptime),
    ((.pveResourceStatus, lvs), float64 (vmStatusValue vm)) ]

/-- The label values passed to every `WithLabelValues` call of the node loop. -/
def nodeLabelValues (node : NODE) : List String :=
  let labelID := node.ID
  let labelNode := node.Node
  let labelType := node.Type_
  let labelName := node.Node
  [labelID, labelName, labelNode, "0", labelType, "0"]

/-- The local `statusValue` of the node loop. -/
def nodeStatusValue (node : NODE) : Int := if node.Status = "online" then 1 else 0

/-- The eight `Set` calls of the node loop body, in source order. -/
def nodeWrites (node : NODE) : List Write :=
  let lvs := nodeLabelValues node
  [ ((.pveResourceCpu, lvs), node.Cpu),
    ((.pveResourceDisk, lvs), float64 node.Disk),
    ((.pveResourceMaxCpu, lvs), float64 node.MaxCpu),
    ((.pveResourceMaxDisk, lvs), float64 node.MaxDisk),
    ((.pveResourceMaxMem, lvs), float64 node.MaxMem),
    ((.pveResourceMem, lvs), float64 node.Mem),
    ((.pveResourceUptime, lvs), float64 node.Uptime),
    ((.pveResourceStatus, lvs), float64 (nodeStatusValue node)) ]

/-- The local `labelContent` of the storage loop: split on commas, sort, rejoin. -/
def labelContent (content : String) : String :=
  let contentList := strings.Split content ','
  let contentList := sort.Strings contentList
  strings.Join contentList ","

/-- The label values passed to every `WithLabelValues` call of the storage loop. -/
def storageLabelValues (storage : STORAGE) : List String :=
  let labelID := storage.ID
  let labelName := storage.Storage
  let labelNode := storage.Node
  let labelType := storage.Type_
  let labelPluginType := storage.PluginType
  let labelShared := fmt.formatInt storage.Shared
  [labelID, labelName, labelNode, labelType, labelPluginType, labelShared,
    labelContent storage.Content]

/-- The local `statusValue` of the storage loop. -/
def storageStatusValue (storage : STORAGE) : Int :=
  if storage.Status = "available" then 1 else 0

/-- The three `Set` calls of the storage loop body, in source order. -/
def storageWrites (storage : STORAGE) : List Write :=
  let lvs := storageLabelValues storage
  [ ((.pveStorageDisk, lvs), float64 storage.Disk),
    ((.pveStorageMaxDisk, lvs), float64 storage.MaxDisk),
    ((.pveStorageStatus, lvs), float64 (storageStatusValue storage)) ]

/-! ## Fetching and publishing -/

/-- The output of the external command. -/
abbrev Bytes := List (Fin 256)

/-- What the world answers during one cycle: the result of `cmd.Output()` for
`pvesh get /cluster/resources --type <t> --output-format json` (the bytes, or the
message of the error), and `json.Unmarshal` into each of the three slice types
(the decoded slice, or the message of the error). -/
structure Env where
  pvesh : String → Except String Bytes
  unmarshalVM : Bytes → Except String (List VM)
  unmarshalNODE : Bytes → Except String (List NODE)
  unmarshalSTORAGE : Bytes → Except String (List STORAGE)

/-- Go `fetchAndUpdateVMpveResourceMetrics`: the returned error (its message) and
the registry afterwards. -/
def fetchAndUpdateVMpveResourceMetrics (env : Env) (R : Registry) :
    Except String Unit × Registry :=
  match env.pvesh "vm" with
  | .error err => (.error ("error executing pvesh command: " ++ err), R)
  | .ok output =>
    match env.unmarshalVM output with
    | .error err => (.error ("error parsing JSON: " ++ err), R)
    | .ok vms => (.ok (), publish vmWrites vms R)

/-- Go `fetchAndUpdateNodepveResourceMetrics`. -/
def fetchAndUpdateNodepveResourceMetrics (env : Env) (R : Registry) :
    Except String Unit × Registry :=
  match env.pvesh "node" with
  | .error err => (.error ("error executing pvesh command: " ++ err), R)
  | .ok output =>
    match env.unmarshalNODE output with
    | .error err => (.error ("error parsing JSON: " ++ err), R)
    | .ok nodes => (.ok (), publish nodeWrites nodes R)

/-- Go `fetchAndUpdateStoragepveResourceMetrics`. -/
def fetchAndUpdateStoragepveResourceMetrics (env : Env) (R : Registry) :
    Except String Unit × Registry :=
  match env.pvesh "storage" with
  | .error err => (.error ("error executing pvesh command: " ++ err), R)
  | .ok output =>
    match env.unmarshalSTORAGE output with
    | .error err => (.error ("error parsing JSON: " ++ err), R)
    | .ok storages => (.ok (), publish storageWrites storages R)

/-- The line `log.Printf(prefix ++ "%v", err)` prints when the publisher returned
an error; nothing otherwise. -/
def logError (pfx : String) (r : Except String Unit) : List String :=
  match r with
  | .error err => [pfx ++ err]
  | .ok _ => []

/-- The body of `for range ticker.C` in `main`: one scheduler cycle.  Returns the
lines logged and the registry afterwards. -/
def cycle (env : Env) (R : Registry) : List String × Registry :=
  let r1 := fetchAndUpdateVMpveResourceMetrics env R
  let r2 := fetchAndUpdateNodepveResourceMetrics env r1.2
  let r3 := fetchAndUpdateStoragepveResourceMetrics env r2.2
  (logError "Error fetching VM metrics: " r1.1
    ++ logError "Error fetching Node metrics: " r2.1
    ++ logError "Error fetching Storage metrics: " r3.1, r3.2)

/-! ## Specification-side vocabulary -/

/-- The outcome of a fetch as the publisher sees it: the decoded records when the
command succeeded and its output decoded, nothing otherwise. -/
def fetched {α : Type} (out : Except String Bytes) (unmarshal : Bytes → Except String (List α)) :
    Option (List α) :=
  match out with
  | .error _ => none
  | .ok output =>
    match unmarshal output with
    | .error _ => none
    | .ok xs => some xs

/-- Apply a publisher to the records of a successful fetch; skip a failed one. -/
def publishFetched {α : Type} (writes : α → List Write) (f : Option (List α)) (R : Registry) :
    Registry :=
  match f with
  | some xs => publish writes xs R
  | none => R

/-- The record `r` is the last one of `xs` that derives its label tuple. -/
def IsLastFor {α : Type} (labels : α → List String) (xs : List α) (r : α) : Prop :=
  ∃ pre post, xs = pre ++ r :: post ∧ ∀ x ∈ post, labels x ≠ labels r

/-! ## Concrete records and environments -/

/-- The record `vmid=100, node="pve1", cpu=0.5, status="running"`; the other
fields have their zero value. -/
def vm100 : VM := { VMID := 100, Node := "pve1", Cpu := 0.5, Status := "running" }

/-- The record `vmid=101, node="pve1", cpu=0.0, status="stopped"`. -/
def vm101 : VM := { VMID := 101, Node := "pve1", Cpu := 0, Status := "stopped" }

/-- A guest as the cluster reports it. -/
def vmQemu : VM :=
  { ID := "qemu/100", Name := "web", Node := "pve1", Type_ := "qemu", VMID := 100,
    Status := "running", MaxCpu := 4 }

/-- A guest record with vmid and template 0 whose name is its node name. -/
def vmPlain : VM := { ID := "x", Name := "a", Node := "a", Type_ := "t" }

/-- A node record whose id has the shape of a guest id label. -/
def nodeOdd : NODE := { ID := "node/a/x", Node := "a", Type_ := "t" }

/-- A node as the cluster reports it. -/
def nodePve1 : NODE := { ID := "node/pve1", Node := "pve1", Type_ := "node", Status := "online" }

/-- A storage record with its content list in source order. -/
def storageLocal : STORAGE :=
  { ID := "storage/pve1/local", Storage := "local", Node := "pve1", Type_ := "storage",
    PluginType := "dir", Content := "iso,images", Disk := 7, MaxDisk := 9,
    Status := "available" }

/-- The same storage with its content list in the other order. -/
def storageLocalSwapped : STORAGE := { storageLocal with Content := "images,iso" }

/-- A cycle in which every command succeeds and every output decodes. -/
def envOk : Env :=
  { pvesh := fun _ => .ok []
    unmarshalVM := fun _ => .ok [vm100, vm101]
    unmarshalNODE := fun _ => .ok [nodePve1]
    unmarshalSTORAGE := fun _ => .ok [storageLocal] }

/-- A cycle in which the node command fails and the other two succeed. -/
def envNodeDown : Env :=
  { envOk with
    pvesh := fun t => if t = "node" then .error "exit status 255" else .ok [] }

/-- A cycle in which every command succeeds and no output decodes. -/
def envGarbage : Env :=
  { pvesh := fun _ => .ok []
    unmarshalVM := fun _ => .error "unexpected end of JSON input"
    unmarshalNODE := fun _ => .error "unexpected end of JSON input"
    unmarshalSTORAGE := fun _ => .error "unexpected end of JSON input" }

/-- A registry holding one earlier value of a guest series. -/
def registryOld : Registry :=
  Registry.empty.set .pveResourceCpu (vmLabelValues vm100) 7

/-- A guest whose disk usage, 2^53 + 1 bytes, needs 54 significant bits. -/
def vmHuge : VM :=
  { ID := "qemu/100", Node := "pve1", Type_ := "qemu", VMID := 100, Status := "running",
    Disk := 9007199254740993 }

/-- A cycle in which the virtual-machine listing holds the one record `vmHuge`. -/
def envHuge : Env := { envOk with unmarshalVM := fun _ => .ok [vmHuge] }

/-! ## Splitting, sorting and joining -/

theorem strings.splitChars_ne_nil (sep : Char) (l : List Char) :
    strings.splitChars sep l ≠ [] := by
  cases l with
  | nil => simp [strings.splitChars]
  | cons c cs =>
    simp only [strings.splitChars]
    split_ifs
    · simp
    · split <;> simp

theorem strings.not_mem_of_mem_splitChars (sep : Char) :
    ∀ (l : List Char) (p : List Char), p ∈ strings.splitChars sep l → sep ∉ p := by
  intro l
  induction l with
  | nil => intro p hp; simp [strings.splitChars] at hp; simp [hp]
  | cons c cs ih =>
    intro p hp
    simp only [strings.splitChars] at hp
    split_ifs at hp with hc
    · rcases List.mem_cons.1 hp with h | h
      · simp [h]
      · exact ih p h
    · split at hp
      · simp at hp; subst hp; simpa using fun h => hc h.symm
      · rename_i q qs hq
        rcases List.mem_cons.1 hp with h | h
        · subst h
          have hq1 : sep ∉ q := ih q (by rw [hq]; simp)
          simp only [List.mem_cons, not_or]
          exact ⟨fun h => hc h.symm, hq1⟩
        · exact ih p (by rw [hq]; simp [h])

theorem strings.splitChars_of_not_mem (sep : Char) :
    ∀ a : List Char, sep ∉ a → strings.splitChars sep a = [a] := by
  intro a
  induction a with
  | nil => intro _; rfl
  | cons c cs ih =>
    intro h
    simp only [List.mem_cons, not_or] at h
    have hc : ¬ c = sep := fun e => h.1 e.symm
    simp [strings.splitChars, hc, ih h.2]

theorem strings.splitChars_append_sep (sep : Char) (t : List Char) :
    ∀ a : List Char, sep ∉ a →
      strings.splitChars sep (a ++ sep :: t) = a :: strings.splitChars sep t := by
  intro a
  induction a with
  | nil => intro _; simp [strings.splitChars]
  | cons c cs ih =>
    intro h
    simp only [List.mem_cons, not_or] at h
    have hc : ¬ c = sep := fun e => h.1 e.symm
    simp [strings.splitChars, hc, ih h.2]

theorem strings.Split_ne_nil (s : String) (sep : Char) : strings.Split s sep ≠ [] := by
  simp [strings.Split, strings.splitChars_ne_nil]

theorem strings.not_mem_of_mem_Split (s : String) (sep : Char) (p : String)
    (hp : p ∈ strings.Split s sep) : sep ∉ p.data := by
  simp only [strings.Split, List.mem_map] at hp
  obtain ⟨q, hq, rfl⟩ := hp
  exact strings.not_mem_of_mem_splitChars sep _ q hq

/-- Splitting a joined list gives the list back, when no element contains the
separator and the list is not empty. -/
theorem strings.Split_Join (sep : Char) :
    ∀ parts : List String, parts ≠ [] → (∀ p ∈ parts, sep ∉ p.data) →
      strings.Split (strings.Join parts (String.mk [sep])) sep = parts := by
  intro parts
  induction parts with
  | nil => intro h; exact absurd rfl h
  | cons a rest ih =>
    intro _ hp
    cases rest with
    | nil =>
      have ha : sep ∉ a.data := hp a (by simp)
      simp [strings.Join, strings.Split, strings.splitChars_of_not_mem sep _ ha]
    | cons b rest =>
      have ha : sep ∉ a.data := hp a (by simp)
      have ih1 := ih (by simp) (fun p h => hp p (List.mem_cons_of_mem _ h))
      simp only [strings.Split] at ih1
      simp only [strings.Join, strings.Split, String.data_append, List.append_assoc,
        List.singleton_append]
      rw [strings.splitChars_append_sep sep _ _ ha]
      simp [ih1]

theorem sort.Strings_perm (xs : List String) : (sort.Strings xs).Perm xs :=
  List.perm_insertionSort _ xs

theorem sort.Strings_sorted (xs : List String) : (sort.Strings xs).Sorted (· ≤ ·) := by
  haveI : IsTotal String (fun a b => a.data ≤ b.data) := ⟨fun a b => le_total a.data b.data⟩
  haveI : IsTrans String (fun a b => a.data ≤ b.data) :=
    ⟨fun a b c hab hbc => le_trans (a := a.data) hab hbc⟩
  have h := List.sorted_insertionSort (fun a b : String => a.data ≤ b.data) xs
  exact List.Pairwise.imp (fun {a b} hab => String.le_iff_toList_le.2 hab) h

/-- Two sorted lists of strings with the same elements are the same list. -/
theorem sort.Strings_eq_of_perm (xs ys : List String) (h : xs.Perm ys) :
    sort.Strings xs = sort.Strings ys :=
  List.eq_of_perm_of_sorted (r := (· ≤ ·))
    (((sort.Strings_perm xs).trans h).trans (sort.Strings_perm ys).symm)
    (sort.Strings_sorted xs) (sort.Strings_sorted ys)

theorem sort.Strings_of_sorted (xs : List String) (h : xs.Sorted (· ≤ ·)) :
    sort.Strings xs = xs :=
  List.eq_of_perm_of_sorted (r := (· ≤ ·)) (sort.Strings_perm xs) (sort.Strings_sorted xs) h

/-- Splitting the content label gives the sorted parts of the content. -/
theorem split_labelContent (c : String) :
    strings.Split (labelContent c) ',' = sort.Strings (strings.Split c ',') := by
  have hperm := sort.Strings_perm (strings.Split c ',')
  have hne : sort.Strings (strings.Split c ',') ≠ [] := by
    intro h
    rw [h] at hperm
    exact strings.Split_ne_nil c ',' (List.Perm.nil_eq hperm).symm
  have hmem : ∀ p ∈ sort.Strings (strings.Split c ','), ',' ∉ p.data := fun p hp =>
    strings.not_mem_of_mem_Split c ',' p (hperm.mem_iff.1 hp)
  exact strings.Split_Join ',' _ hne hmem

/-! ## Sequences of writes -/

theorem applyWrites_append (ws₁ ws₂ : List Write) (R : Registry) :
    applyWrites (ws₁ ++ ws₂) R = applyWrites ws₂ (applyWrites ws₁ R) := by
  induction ws₁ generalizing R with
  | nil => rfl
  | cons w ws ih => simp [applyWrites, ih]

/-- A key that no call addresses keeps its value. -/
theorem applyWrites_of_not_mem (ws : List Write) (R : Registry) (k : Key)
    (h : ∀ w ∈ ws, w.1 ≠ k) : applyWrites ws R k = R k := by
  induction ws generalizing R with
  | nil => rfl
  | cons w ws ih =>
    have hw : k ≠ (w.1.1, w.1.2) := fun e => h w (by simp) e.symm
    rw [applyWrites, ih _ (fun x hx => h x (List.mem_cons_of_mem _ hx))]
    simp [Registry.set, hw]

/-- The value of a key that some call addresses does not depend on the registry
the calls started from. -/
theorem applyWrites_of_mem (ws : List Write) (R R' : Registry) (k : Key)
    (h : ∃ w ∈ ws, w.1 = k) : applyWrites ws R k = applyWrites ws R' k := by
  induction ws generalizing R R' with
  | nil => simp at h
  | cons w ws ih =>
    simp only [applyWrites]
    by_cases hk : ∃ x ∈ ws, x.1 = k
    · exact ih _ _ hk
    · have hw : w.1 = k := by
        obtain ⟨x, hx, hxk⟩ := h
        rcases List.mem_cons.1 hx with e | e
        · exact e ▸ hxk
        · exact absurd ⟨x, e, hxk⟩ hk
      have hno : ∀ x ∈ ws, x.1 ≠ k := fun x hx e => hk ⟨x, hx, e⟩
      rw [applyWrites_of_not_mem _ _ _ hno, applyWrites_of_not_mem _ _ _ hno]
      have hk2 : k = (w.1.1, w.1.2) := hw.symm
      simp [Registry.set, hk2]

theorem applyWrites_idem (ws : List Write) (R : Registry) :
    applyWrites ws (applyWrites ws R) = applyWrites ws R := by
  funext k
  by_cases hk : ∃ w ∈ ws, w.1 = k
  · exact applyWrites_of_mem ws _ _ k hk
  · rw [applyWrites_of_not_mem ws _ k (fun w hw e => hk ⟨w, hw, e⟩)]

/-- A series that exists still exists after any sequence of calls. -/
theorem applyWrites_ne_none (ws : List Write) (R : Registry) (k : Key) (h : R k ≠ none) :
    applyWrites ws R k ≠ none := by
  induction ws generalizing R with
  | nil => exact h
  | cons w ws ih =>
    rw [applyWrites]
    apply ih
    simp only [Registry.set]
    split_ifs
    · simp
    · exact h

theorem publish_eq_applyWrites {α : Type} (writes : α → List Write) (xs : List α)
    (R : Registry) : publish writes xs R = applyWrites (xs.flatMap writes) R := by
  induction xs generalizing R with
  | nil => rfl
  | cons x xs ih =>
    rw [List.flatMap_cons, applyWrites_append, ← ih]
    rfl

theorem publish_append {α : Type} (writes : α → List Write) (xs ys : List α) (R : Registry) :
    publish writes (xs ++ ys) R = publish writes ys (publish writes xs R) := by
  simp [publish]

theorem publish_idem {α : Type} (writes : α → List Write) (xs : List α) (R : Registry) :
    publish writes xs (publish writes xs R) = publish writes xs R := by
  simp only [publish_eq_applyWrites, applyWrites_idem]

theorem publish_ne_none {α : Type} (writes : α → List Write) (xs : List α) (R : Registry)
    (k : Key) (h : R k ≠ none) : publish writes xs R k ≠ none := by
  rw [publish_eq_applyWrites]
  exact applyWrites_ne_none _ R k h

/-- A key whose label tuple no record derives keeps its value, for a loop body
whose calls all use the label tuple `labels x`. -/
theorem publish_frame {α : Type} (writes : α → List Write) (labels : α → List String)
    (hw : ∀ x, ∀ w ∈ writes x, w.1.2 = labels x) (xs : List α) (R : Registry) (k : Key)
    (h : ∀ x ∈ xs, labels x ≠ k.2) : publish writes xs R k = R k := by
  rw [publish_eq_applyWrites]
  apply applyWrites_of_not_mem
  intro w hmem e
  obtain ⟨x, hx, hwx⟩ := List.mem_flatMap.1 hmem
  exact h x hx (by rw [← hw x w hwx, e])

/-- After the loop, a key with the label tuple of the last record that derives
it has the value the body of that record left. -/
theorem publish_last {α : Type} (writes : α → List Write) (labels : α → List String)
    (hw : ∀ x, ∀ w ∈ writes x, w.1.2 = labels x) (xs : List α) (r : α)
    (hr : IsLastFor labels xs r) (R : Registry) (vec : Series) :
    ∃ R₀ : Registry, publish writes xs R (vec, labels r) =
      applyWrites (writes r) R₀ (vec, labels r) := by
  obtain ⟨pre, post, rfl, hpost⟩ := hr
  refine ⟨publish writes pre R, ?_⟩
  rw [publish_append]
  have : publish writes (r :: post) (publish writes pre R)
      = publish writes post (applyWrites (writes r) (publish writes pre R)) := rfl
  rw [this]
  exact publish_frame writes labels hw post _ (vec, labels r) hpost

theorem vmWrites_labels (vm : VM) : ∀ w ∈ vmWrites vm, w.1.2 = vmLabelValues vm := by
  intro w hw
  simp only [vmWrites, List.mem_cons, List.mem_singleton, List.not_mem_nil, or_false] at hw
  rcases hw with h | h | h | h | h | h | h | h | h | h | h | h <;> rw [h]

theorem nodeWrites_labels (node : NODE) : ∀ w ∈ nodeWrites node, w.1.2 = nodeLabelValues node := by
  intro w hw
  simp only [nodeWrites, List.mem_cons, List.mem_singleton, List.not_mem_nil, or_false] at hw
  rcases hw with h | h | h | h | h | h | h | h <;> rw [h]

theorem storageWrites_labels (st : STORAGE) :
    ∀ w ∈ storageWrites st, w.1.2 = storageLabelValues st := by
  intro w hw
  simp only [storageWrites, List.mem_cons, List.mem_singleton, List.not_mem_nil, or_false] at hw
  rcases hw with h | h | h <;> rw [h]

theorem float64_zero : float64 0 = 0 := by
  norm_num [float64, Nat.log2]

theorem float64_one : float64 1 = 1 := by
  norm_num [float64, Nat.log2]

/-- Above 53 bits the conversion rounds: `float64(2^53 + 1)` is `2^53`. -/
theorem float64_rounds : float64 (2 ^ 53 + 1) = 2 ^ 53 := by
  norm_num [float64, Nat.log2]

/-- The conversion is exact for integers of at most 53 bits. -/
theorem float64_of_lt (n : Int) (h : n.natAbs < 2 ^ 53) : float64 n = (n : ℚ) := by
  have he : Nat.log2 n.natAbs + 1 - 53 = 0 := by
    by_cases h0 : n.natAbs = 0
    · rw [h0]; simp [Nat.log2]
    · have := (Nat.log2_lt h0).2 h
      omega
  simp only [float64, he, pow_zero, Nat.div_one, Nat.mod_one, mul_zero, mul_one]
  norm_num
  split_ifs with hn
  · rw [← Int.cast_natCast, Int.ofNat_natAbs_of_nonpos hn.le]; simp
  · push_neg at hn
    rw [← Int.cast_natCast, Int.natAbs_of_nonneg hn]

/-! ## The virtual-machine publisher -/

theorem fetchAndUpdateVM_of_ok (env : Env) (R : Registry) (out : Bytes) (vms : List VM)
    (hcmd : env.pvesh "vm" = .ok out) (hdec : env.unmarshalVM out = .ok vms) :
    fetchAndUpdateVMpveResourceMetrics env R = (.ok (), publish vmWrites vms R) := by
  simp [fetchAndUpdateVMpveResourceMetrics, hcmd, hdec]

theorem vm100_isLast : IsLastFor vmLabelValues [vm100, vm101] vm100 :=
  ⟨[], [vm101], rfl, by simp [vmLabelValues, vm100, vm101]; decide⟩

theorem vm101_isLast : IsLastFor vmLabelValues [vm100, vm101] vm101 :=
  ⟨[vm100], [], rfl, by simp⟩

/-- C1, as stated, fails: for the single decoded record `vmHuge`, which is the last
record deriving its label tuple, with disk 2^53 + 1 = 9007199254740993, the disk
gauge at its label tuple holds 2^53 = 9007199254740992 after publishing, not the
record's disk value. -/
theorem vm_disk_gauge_holds_rounded_value :
    envHuge.pvesh "vm" = .ok [] ∧ envHuge.unmarshalVM [] = .ok [vmHuge] ∧
    IsLastFor vmLabelValues [vmHuge] vmHuge ∧
    vmHuge.Disk = 9007199254740993 ∧
    (fetchAndUpdateVMpveResourceMetrics envHuge Registry.empty).2
      (.pveResourceDisk, vmLabelValues vmHuge) = some 9007199254740992 ∧
    (fetchAndUpdateVMpveResourceMetrics envHuge Registry.empty).2
      (.pveResourceDisk, vmLabelValues vmHuge) ≠ some ((vmHuge.Disk : Int) : ℚ) := by
  have hval : (fetchAndUpdateVMpveResourceMetrics envHuge Registry.empty).2
      (.pveResourceDisk, vmLabelValues vmHuge) = some 9007199254740992 := by
    have h : (fetchAndUpdateVMpveResourceMetrics envHuge Registry.empty).2
        = publish vmWrites [vmHuge] Registry.empty := rfl
    have hd : float64 vmHuge.Disk = 9007199254740992 := by
      have := float64_rounds
      norm_num at this
      simpa [vmHuge] using this
    rw [h, ← hd]
    simp [publish, vmWrites, applyWrites, Registry.set]
  refine ⟨rfl, rfl, ⟨[], [], rfl, by simp⟩, rfl, hval, ?_⟩
  rw [hval]
  simp [vmHuge]

/-- C1, amended: when the command succeeds and its output decodes to `vms`, the
publisher returns no error and, for every record `r` that is the last one of `vms`
deriving its label tuple, the cpu gauge at that tuple holds `r.Cpu`, the gauges
disk, diskread, diskwrite, maxcpu, maxdisk, maxmem, mem, netin, netout and uptime
hold the `float64` conversion of the field of `r`, and the status gauge holds the
projected status.  For the two records vmid 100 (cpu 0.5, running) and vmid 101
(cpu 0, stopped) on node pve1 the cpu gauges are 0.5 and 0 and the status gauges
1 and 0. -/
theorem vm_publish_last_record_wins (env : Env) (R : Registry) (out : Bytes) (vms : List VM)
    (hcmd : env.pvesh "vm" = .ok out) (hdec : env.unmarshalVM out = .ok vms) :
    (fetchAndUpdateVMpveResourceMetrics env R).1 = .ok () ∧
    (∀ r, IsLastFor vmLabelValues vms r →
      (fetchAndUpdateVMpveResourceMetrics env R).2 (.pveResourceCpu, vmLabelValues r)
        = some r.Cpu ∧
      (fetchAndUpdateVMpveResourceMetrics env R).2 (.pveResourceDisk, vmLabelValues r)
        = some (float64 r.Disk) ∧
      (fetchAndUpdateVMpveResourceMetrics env R).2 (.pveResourceDiskRead, vmLabelValues r)
        = some (float64 r.DiskRead) ∧
      (fetchAndUpdateVMpveResourceMetrics env R).2 (.pveResourceDiskWrite, vmLabelValues r)
        = some (float64 r.DiskWrite) ∧
      (fetchAndUpdateVMpveResourceMetrics env R).2 (.pveResourceMaxCpu, vmLabelValues r)
        = some (float64 r.MaxCpu) ∧
      (fetchAndUpdateVMpveResourceMetrics env R).2 (.pveResourceMaxDisk, vmLabelValues r)
        = some (float64 r.MaxDisk) ∧
      (fetchAndUpdateVMpveResourceMetrics env R).2 (.pveResourceMaxMem, vmLabelValues r)
        = some (float64 r.MaxMem) ∧
      (fetchAndUpdateVMpveResourceMetrics env R).2 (.pveResourceMem, vmLabelValues r)
        = some (float64 r.Mem) ∧
      (fetchAndUpdateVMpveResourceMetrics env R).2 (.pveResourceNetIn, vmLabelValues r)
        = some (float64 r.NetIn) ∧
      (fetchAndUpdateVMpveResourceMetrics env R).2 (.pveResourceNetOut, vmLabelValues r)
        = some (float64 r.NetOut) ∧
      (fetchAndUpdateVMpveResourceMetrics env R).2 (.pveResourceUptime, vmLabelValues r)
        = some (float64 r.Uptime) ∧
      (fetchAndUpdateVMpveResourceMetrics env R).2 (.pveResourceStatus, vmLabelValues r)
        = some (if r.Status = "running" then 1 else 0)) ∧
    (vms = [vm100, vm101] →
      (fetchAndUpdateVMpveResourceMetrics env R).2
        (.pveResourceCpu, ["node/pve1/", "", "pve1", "0", "", "100"]) = some 0.5 ∧
      (fetchAndUpdateVMpveResourceMetrics env R).2
        (.pveResourceStatus, ["node/pve1/", "", "pve1", "0", "", "100"]) = some 1 ∧
      (fetchAndUpdateVMpveResourceMetrics env R).2
        (.pveResourceCpu, ["node/pve1/", "", "pve1", "0", "", "101"]) = some 0 ∧
      (fetchAndUpdateVMpveResourceMetrics env R).2
        (.pveResourceStatus, ["node/pve1/", "", "pve1", "0", "", "101"]) = some 0) := by
  have hres := fetchAndUpdateVM_of_ok env R out vms hcmd hdec
  have h1 : (fetchAndUpdateVMpveResourceMetrics env R).1 = .ok () := by rw [hres]
  have h2 : (fetchAndUpdateVMpveResourceMetrics env R).2 = publish vmWrites vms R := by
    rw [hres]
  rw [h2]
  have key : ∀ r, IsLastFor vmLabelValues vms r → ∀ (vec : Series) (v : Float64),
      (∀ R₀ : Registry, applyWrites (vmWrites r) R₀ (vec, vmLabelValues r) = some v) →
      publish vmWrites vms R (vec, vmLabelValues r) = some v := by
    intro r hr vec v hv
    obtain ⟨R₀, h⟩ := publish_last vmWrites vmLabelValues vmWrites_labels vms r hr R vec
    rw [h, hv]
  have hst : ∀ r : VM, float64 (vmStatusValue r) = if r.Status = "running" then 1 else 0 := by
    intro r
    unfold vmStatusValue
    split_ifs
    · exact float64_one
    · exact float64_zero
  have gen : ∀ r, IsLastFor vmLabelValues vms r → _ := fun r hr =>
    (⟨key r hr _ _ (fun R₀ => by simp [vmWrites, applyWrites, Registry.set]),
      key r hr _ _ (fun R₀ => by simp [vmWrites, applyWrites, Registry.set]),
      key r hr _ _ (fun R₀ => by simp [vmWrites, applyWrites, Registry.set]),
      key r hr _ _ (fun R₀ => by simp [vmWrites, applyWrites, Registry.set]),
      key r hr _ _ (fun R₀ => by simp [vmWrites, applyWrites, Registry.set]),
      key r hr _ _ (fun R₀ => by simp [vmWrites, applyWrites, Registry.set]),
      key r hr _ _ (fun R₀ => by simp [vmWrites, applyWrites, Registry.set]),
      key r hr _ _ (fun R₀ => by simp [vmWrites, applyWrites, Registry.set]),
      key r hr _ _ (fun R₀ => by simp [vmWrites, applyWrites, Registry.set]),
      key r hr _ _ (fun R₀ => by simp [vmWrites, applyWrites, Registry.set]),
      key r hr _ _ (fun R₀ => by simp [vmWrites, applyWrites, Registry.set]),
      key r hr _ _ (fun R₀ => by rw [← hst]; simp [vmWrites, applyWrites, Registry.set])⟩ :
      publish vmWrites vms R (.pveResourceCpu, vmLabelValues r) = some r.Cpu ∧
      publish vmWrites vms R (.pveResourceDisk, vmLabelValues r) = some (float64 r.Disk) ∧
      publish vmWrites vms R (.pveResourceDiskRead, vmLabelValues r)
        = some (float64 r.DiskRead) ∧
      publish vmWrites vms R (.pveResourceDiskWrite, vmLabelValues r)
        = some (float64 r.DiskWrite) ∧
      publish vmWrites vms R (.pveResourceMaxCpu, vmLabelValues r) = some (float64 r.MaxCpu) ∧
      publish vmWrites vms R (.pveResourceMaxDisk, vmLabelValues r)
        = some (float64 r.MaxDisk) ∧
      publish vmWrites vms R (.pveResourceMaxMem, vmLabelValues r) = some (float64 r.MaxMem) ∧
      publish vmWrites vms R (.pveResourceMem, vmLabelValues r) = some (float64 r.Mem) ∧
      publish vmWrites vms R (.pveResourceNetIn, vmLabelValues r) = some (float64 r.NetIn) ∧
      publish vmWrites vms R (.pveResourceNetOut, vmLabelValues r) = some (float64 r.NetOut) ∧
      publish vmWrites vms R (.pveResourceUptime, vmLabelValues r) = some (float64 r.Uptime) ∧
      publish vmWrites vms R (.pveResourceStatus, vmLabelValues r)
        = some (if r.Status = "running" then 1 else 0))
  refine ⟨h1, gen, ?_⟩
  intro hv
  have h100 := gen vm100 (hv ▸ vm100_isLast)
  have h101 := gen vm101 (hv ▸ vm101_isLast)
  have l100 : vmLabelValues vm100 = ["node/pve1/", "", "pve1", "0", "", "100"] := by decide
  have l101 : vmLabelValues vm101 = ["node/pve1/", "", "pve1", "0", "", "101"] := by decide
  rw [l100] at h100
  rw [l101] at h101
  refine ⟨?_, ?_, ?_, ?_⟩
  · rw [h100.1]; simp [vm100]
  · rw [h100.2.2.2.2.2.2.2.2.2.2.2]; simp [vm100]
  · rw [h101.1]; simp [vm101]
  · rw [h101.2.2.2.2.2.2.2.2.2.2.2]; simp [vm101]

/-- C1 amended, at a concrete cycle: both records decode, and the four gauges of the
example hold 0.5, 1, 0 and 0 starting from the empty registry. -/
theorem vm_publish_last_record_wins_witness :
    envOk.pvesh "vm" = .ok [] ∧ envOk.unmarshalVM [] = .ok [vm100, vm101] ∧
    (fetchAndUpdateVMpveResourceMetrics envOk Registry.empty).2
      (.pveResourceCpu, ["node/pve1/", "", "pve1", "0", "", "100"]) = some 0.5 ∧
    (fetchAndUpdateVMpveResourceMetrics envOk Registry.empty).2
      (.pveResourceStatus, ["node/pve1/", "", "pve1", "0", "", "100"]) = some 1 ∧
    (fetchAndUpdateVMpveResourceMetrics envOk Registry.empty).2
      (.pveResourceCpu, ["node/pve1/", "", "pve1", "0", "", "101"]) = some 0 ∧
    (fetchAndUpdateVMpveResourceMetrics envOk Registry.empty).2
      (.pveResourceStatus, ["node/pve1/", "", "pve1", "0", "", "101"]) = some 0 :=
  ⟨rfl, rfl,
    (vm_publish_last_record_wins envOk Registry.empty [] [vm100, vm101] rfl rfl).2.2 rfl⟩

/-! ## Label tuples -/

theorem fmt.length_le_toDigitsCore (b : Nat) :
    ∀ (f n : Nat) (ds : List Char), ds.length ≤ (Nat.toDigitsCore b f n ds).length := by
  intro f
  induction f with
  | zero => intro n ds; simp [Nat.toDigitsCore]
  | succ f ih =>
    intro n ds
    simp only [Nat.toDigitsCore]
    split_ifs
    · simp
    · exact le_trans (by simp) (ih _ _)

theorem fmt.eq_zero_of_repr_eq (m : Nat) (h : Nat.repr m = "0") : m = 0 := by
  have hd : Nat.toDigits 10 m = ['0'] := by
    have := congrArg String.data h
    simpa [Nat.repr] using this
  by_cases h10 : m / 10 = 0
  · have hlt : m < 10 := by omega
    simp only [Nat.toDigits, Nat.toDigitsCore, h10, if_true] at hd
    interval_cases m <;> first | rfl | (exfalso; revert hd; decide)
  · exfalso
    obtain ⟨f, rfl⟩ : ∃ f, m = f + 1 := ⟨m - 1, by omega⟩
    have hlen := congrArg List.length hd
    simp only [Nat.toDigits, Nat.toDigitsCore, h10, if_false, List.length_singleton,
      List.length_nil] at hlen
    split_ifs at hlen
    · simp at hlen
    · have := fmt.length_le_toDigitsCore 10 f ((f + 1) / 10 / 10)
        [Nat.digitChar ((f + 1) / 10 % 10), Nat.digitChar ((f + 1) % 10)]
      simp only [List.length_cons, List.length_nil] at this
      omega

/-- Only the number 0 is printed as `"0"`. -/
theorem fmt.formatInt_eq_zero (n : Int) (h : fmt.formatInt n = "0") : n = 0 := by
  cases n with
  | ofNat m =>
    have := fmt.eq_zero_of_repr_eq m h
    simp [this]
  | negSucc m =>
    exfalso
    have := congrArg String.data h
    simp only [fmt.formatInt, String.data_append] at this
    have h2 := congrArg List.head? this
    simp at h2

/-- C2, as stated, fails: for the guest with id `qemu/100` on node `pve1` the id
label is `node/pve1/qemu/100`, not the id field, so the tuple used is not
(id, name, node, template, type, vmid). -/
theorem vm_id_label_differs_from_id_field :
    vmQemu.ID = "qemu/100" ∧
    vmLabelValues vmQemu = ["node/pve1/qemu/100", "web", "pve1", "0", "qemu", "100"] ∧
    vmLabelValues vmQemu ≠
      [vmQemu.ID, vmQemu.Name, vmQemu.Node, fmt.formatInt vmQemu.Template, vmQemu.Type_,
        fmt.formatInt vmQemu.VMID] := by
  decide

/-- C2, amended: for every virtual-machine record each of the twelve `Set` calls of
the loop body uses the label tuple (`"node/" ++ node ++ "/" ++ id`, name, node,
template in decimal, type, vmid in decimal). -/
theorem vm_label_tuple (vm : VM) :
    vmLabelValues vm =
      ["node/" ++ vm.Node ++ "/" ++ vm.ID, vm.Name, vm.Node, fmt.formatInt vm.Template,
        vm.Type_, fmt.formatInt vm.VMID] ∧
    (vmWrites vm).map (fun w => w.1.2) = List.replicate 12 (vmLabelValues vm) :=
  ⟨rfl, rfl⟩

/-- C3, as stated, fails: a guest record and a node record with different id
fields that derive the same label tuple. -/
theorem vm_node_tuples_collide :
    vmPlain.ID ≠ nodeOdd.ID ∧ vmLabelValues vmPlain = nodeLabelValues nodeOdd := by
  decide

/-- C3, amended: the label tuple of a virtual-machine record `v` differs from the
label tuple (id, node, node, "0", type, "0") of a node record `n` whenever the id
of `n` differs from the id label `"node/" ++ v.Node ++ "/" ++ v.ID` of `v`, or the
vmid of `v` is not 0, or its template flag is not 0. -/
theorem vm_node_tuples_differ (v : VM) (n : NODE)
    (h : n.ID ≠ "node/" ++ v.Node ++ "/" ++ v.ID ∨ v.VMID ≠ 0 ∨ v.Template ≠ 0) :
    nodeLabelValues n = [n.ID, n.Node, n.Node, "0", n.Type_, "0"] ∧
    vmLabelValues v ≠ nodeLabelValues n := by
  refine ⟨rfl, ?_⟩
  intro e
  simp only [vmLabelValues, nodeLabelValues, vmLabelID, List.cons.injEq, and_true] at e
  obtain ⟨hid, -, -, ht, -, hv⟩ := e
  rcases h with h | h | h
  · exact h hid.symm
  · exact h (fmt.formatInt_eq_zero _ hv)
  · exact h (fmt.formatInt_eq_zero _ ht)

/-- C3 amended, at the guest `qemu/100` and the node `node/pve1`. -/
theorem vm_node_tuples_differ_witness :
    (nodePve1.ID ≠ "node/" ++ vmQemu.Node ++ "/" ++ vmQemu.ID ∨ vmQemu.VMID ≠ 0
      ∨ vmQemu.Template ≠ 0) ∧
    vmLabelValues vmQemu ≠ nodeLabelValues nodePve1 :=
  ⟨Or.inl (by decide), (vm_node_tuples_differ vmQemu nodePve1 (Or.inl (by decide))).2⟩

/-! ## Content-list normalization -/

/-- C4: two storage records that are equal except for their content fields, whose
comma-separated parts are a permutation of one another, get the same content label
and the same label tuple; `"iso,images"` and `"images,iso"` both give
`"images,iso"`. -/
theorem content_label_order_invariant (s₁ s₂ : STORAGE)
    (hrest : { s₁ with Content := s₂.Content } = s₂)
    (hperm : (strings.Split s₁.Content ',').Perm (strings.Split s₂.Content ',')) :
    labelContent s₁.Content = labelContent s₂.Content ∧
    storageLabelValues s₁ = storageLabelValues s₂ ∧
    labelContent "iso,images" = "images,iso" ∧ labelContent "images,iso" = "images,iso" := by
  have hc : labelContent s₁.Content = labelContent s₂.Content := by
    simp only [labelContent, sort.Strings_eq_of_perm _ _ hperm]
  refine ⟨hc, ?_, by decide, by decide⟩
  rw [← hrest]
  simp only [storageLabelValues, hc]

/-- C4 at the record `storageLocal` and the same record with the content list in
the other order. -/
theorem content_label_order_invariant_witness :
    { storageLocal with Content := storageLocalSwapped.Content } = storageLocalSwapped ∧
    (strings.Split storageLocal.Content ',').Perm
      (strings.Split storageLocalSwapped.Content ',') ∧
    storageLabelValues storageLocal = storageLabelValues storageLocalSwapped :=
  ⟨rfl, by decide,
    (content_label_order_invariant storageLocal storageLocalSwapped rfl (by decide)).2.1⟩

/-- C5: for every content string, the content label split on commas is sorted in
ascending lexicographic order and is a permutation of the comma-split parts of the
content; normalizing a label again returns it unchanged. -/
theorem content_label_sorted_perm (c : String) :
    (strings.Split (labelContent c) ',').Sorted (· ≤ ·) ∧
    (strings.Split (labelContent c) ',').Perm (strings.Split c ',') ∧
    labelContent (labelContent c) = labelContent c := by
  refine ⟨?_, ?_, ?_⟩
  · rw [split_labelContent]; exact sort.Strings_sorted _
  · rw [split_labelContent]; exact sort.Strings_perm _
  · show strings.Join (sort.Strings (strings.Split (labelContent c) ',')) "," = labelContent c
    rw [split_labelContent, sort.Strings_of_sorted _ (sort.Strings_sorted _)]
    rfl

/-! ## Status projection -/

/-- The conversion of a 0-or-1 status value is exact. -/
theorem float64_statusValue (b : Prop) [Decidable b] :
    float64 (if b then 1 else 0) = if b then 1 else 0 := by
  split_ifs
  · exact float64_one
  · exact float64_zero

/-- C6: among the `Set` calls of each loop body exactly one addresses a status
gauge, and the value it sets is 1 when the status string is `"running"`
(virtual machine), `"online"` (node), `"available"` (storage) and 0 for every
other string; after publishing one record the status gauge at its label tuple
holds that value. -/
theorem status_projection (vm : VM) (node : NODE) (storage : STORAGE) (R : Registry) :
    ((vmWrites vm).filter (fun w => w.1.1 = .pveResourceStatus ∨ w.1.1 = .pveStorageStatus)
      = [((.pveResourceStatus, vmLabelValues vm), if vm.Status = "running" then 1 else 0)] ∧
    (nodeWrites node).filter
        (fun w => w.1.1 = .pveResourceStatus ∨ w.1.1 = .pveStorageStatus)
      = [((.pveResourceStatus, nodeLabelValues node),
          if node.Status = "online" then 1 else 0)] ∧
    (storageWrites storage).filter
        (fun w => w.1.1 = .pveResourceStatus ∨ w.1.1 = .pveStorageStatus)
      = [((.pveStorageStatus, storageLabelValues storage),
          if storage.Status = "available" then 1 else 0)]) ∧
    (publish vmWrites [vm] R (.pveResourceStatus, vmLabelValues vm)
      = some (if vm.Status = "running" then 1 else 0) ∧
    publish nodeWrites [node] R (.pveResourceStatus, nodeLabelValues node)
      = some (if node.Status = "online" then 1 else 0) ∧
    publish storageWrites [storage] R (.pveStorageStatus, storageLabelValues storage)
      = some (if storage.Status = "available" then 1 else 0)) := by
  refine ⟨⟨?_, ?_, ?_⟩, ?_, ?_, ?_⟩
  · simp [vmWrites, vmStatusValue, List.filter, float64_statusValue]
  · simp [nodeWrites, nodeStatusValue, List.filter, float64_statusValue]
  · simp [storageWrites, storageStatusValue, List.filter, float64_statusValue]
  · simp [publish, vmWrites, applyWrites, Registry.set, vmStatusValue, float64_statusValue]
  · simp [publish, nodeWrites, applyWrites, Registry.set, nodeStatusValue, float64_statusValue]
  · simp [publish, storageWrites, applyWrites, Registry.set, storageStatusValue,
      float64_statusValue]

/-! ## Idempotence, failed fetches, frame -/

theorem fetchAndUpdateVM_registry (env : Env) (R : Registry) :
    (fetchAndUpdateVMpveResourceMetrics env R).2
      = publishFetched vmWrites (fetched (env.pvesh "vm") env.unmarshalVM) R := by
  unfold fetchAndUpdateVMpveResourceMetrics fetched publishFetched
  cases env.pvesh "vm" with
  | error e => rfl
  | ok out =>
    cases h : env.unmarshalVM out with
    | error e => simp [h]
    | ok xs => simp [h]

theorem fetchAndUpdateNode_registry (env : Env) (R : Registry) :
    (fetchAndUpdateNodepveResourceMetrics env R).2
      = publishFetched nodeWrites (fetched (env.pvesh "node") env.unmarshalNODE) R := by
  unfold fetchAndUpdateNodepveResourceMetrics fetched publishFetched
  cases env.pvesh "node" with
  | error e => rfl
  | ok out =>
    cases h : env.unmarshalNODE out with
    | error e => simp [h]
    | ok xs => simp [h]

theorem fetchAndUpdateStorage_registry (env : Env) (R : Registry) :
    (fetchAndUpdateStoragepveResourceMetrics env R).2
      = publishFetched storageWrites (fetched (env.pvesh "storage") env.unmarshalSTORAGE) R := by
  unfold fetchAndUpdateStoragepveResourceMetrics fetched publishFetched
  cases env.pvesh "storage" with
  | error e => rfl
  | ok out =>
    cases h : env.unmarshalSTORAGE out with
    | error e => simp [h]
    | ok xs => simp [h]

theorem publishFetched_idem {α : Type} (writes : α → List Write) (f : Option (List α))
    (R : Registry) :
    publishFetched writes f (publishFetched writes f R) = publishFetched writes f R := by
  cases f with
  | none => rfl
  | some xs => exact publish_idem writes xs R

/-- C7: for each of the three publishers, publishing a record list into the
registry that publishing the same list produced gives that registry again; the
same holds for the whole function run twice against the same command output. -/
theorem publish_idempotent (env : Env) (R : Registry) (vms : List VM) (nodes : List NODE)
    (storages : List STORAGE) :
    (publish vmWrites vms (publish vmWrites vms R) = publish vmWrites vms R ∧
    publish nodeWrites nodes (publish nodeWrites nodes R) = publish nodeWrites nodes R ∧
    publish storageWrites storages (publish storageWrites storages R)
      = publish storageWrites storages R) ∧
    ((fetchAndUpdateVMpveResourceMetrics env (fetchAndUpdateVMpveResourceMetrics env R).2).2
      = (fetchAndUpdateVMpveResourceMetrics env R).2 ∧
    (fetchAndUpdateNodepveResourceMetrics env (fetchAndUpdateNodepveResourceMetrics env R).2).2
      = (fetchAndUpdateNodepveResourceMetrics env R).2 ∧
    (fetchAndUpdateStoragepveResourceMetrics env
        (fetchAndUpdateStoragepveResourceMetrics env R).2).2
      = (fetchAndUpdateStoragepveResourceMetrics env R).2) := by
  refine ⟨⟨publish_idem _ _ _, publish_idem _ _ _, publish_idem _ _ _⟩, ?_, ?_, ?_⟩
  · simp only [fetchAndUpdateVM_registry, publishFetched_idem]
  · simp only [fetchAndUpdateNode_registry, publishFetched_idem]
  · simp only [fetchAndUpdateStorage_registry, publishFetched_idem]

/-- The command failed, or its output did not decode. -/
theorem fetched_eq_none_iff {α : Type} (out : Except String Bytes)
    (unmarshal : Bytes → Except String (List α)) :
    fetched out unmarshal = none ↔
      (∃ e, out = .error e) ∨ (∃ o e, out = .ok o ∧ unmarshal o = .error e) := by
  unfold fetched
  cases out with
  | error e => simp
  | ok o =>
    cases h : unmarshal o with
    | error e => simp [h]
    | ok xs => simp [h]

/-- C8: for each of the three publishers, when the command fails or its output
does not decode, the publisher returns an error and the registry is the one it
was given. -/
theorem failed_fetch_leaves_registry (env : Env) (R : Registry) :
    (((∃ e, env.pvesh "vm" = .error e) ∨
        (∃ o e, env.pvesh "vm" = .ok o ∧ env.unmarshalVM o = .error e)) →
      (∃ msg, (fetchAndUpdateVMpveResourceMetrics env R).1 = .error msg) ∧
      (fetchAndUpdateVMpveResourceMetrics env R).2 = R) ∧
    (((∃ e, env.pvesh "node" = .error e) ∨
        (∃ o e, env.pvesh "node" = .ok o ∧ env.unmarshalNODE o = .error e)) →
      (∃ msg, (fetchAndUpdateNodepveResourceMetrics env R).1 = .error msg) ∧
      (fetchAndUpdateNodepveResourceMetrics env R).2 = R) ∧
    (((∃ e, env.pvesh "storage" = .error e) ∨
        (∃ o e, env.pvesh "storage" = .ok o ∧ env.unmarshalSTORAGE o = .error e)) →
      (∃ msg, (fetchAndUpdateStoragepveResourceMetrics env R).1 = .error msg) ∧
      (fetchAndUpdateStoragepveResourceMetrics env R).2 = R) := by
  refine ⟨?_, ?_, ?_⟩
  · rintro (⟨e, h⟩ | ⟨o, e, h, h'⟩) <;> simp [fetchAndUpdateVMpveResourceMetrics, h, *]
  · rintro (⟨e, h⟩ | ⟨o, e, h, h'⟩) <;> simp [fetchAndUpdateNodepveResourceMetrics, h, *]
  · rintro (⟨e, h⟩ | ⟨o, e, h, h'⟩) <;> simp [fetchAndUpdateStoragepveResourceMetrics, h, *]

/-- C8 at a cycle whose outputs do not decode, starting from a registry that
holds an earlier value: each publisher returns an error and the value stays. -/
theorem failed_fetch_leaves_registry_witness :
    (∃ o e, envGarbage.pvesh "vm" = .ok o ∧ envGarbage.unmarshalVM o = .error e) ∧
    (∃ msg, (fetchAndUpdateVMpveResourceMetrics envGarbage registryOld).1 = .error msg) ∧
    (fetchAndUpdateVMpveResourceMetrics envGarbage registryOld).2 = registryOld ∧
    registryOld (.pveResourceCpu, vmLabelValues vm100) = some 7 :=
  ⟨⟨[], _, rfl, rfl⟩,
    ((failed_fetch_leaves_registry envGarbage registryOld).1
      (Or.inr ⟨[], _, rfl, rfl⟩)).1,
    ((failed_fetch_leaves_registry envGarbage registryOld).1
      (Or.inr ⟨[], _, rfl, rfl⟩)).2,
    by simp [registryOld, Registry.set]⟩

/-! ## The scheduler cycle -/

theorem cycle_registry (env : Env) (R : Registry) :
    (cycle env R).2 =
      publishFetched storageWrites (fetched (env.pvesh "storage") env.unmarshalSTORAGE)
        (publishFetched nodeWrites (fetched (env.pvesh "node") env.unmarshalNODE)
          (publishFetched vmWrites (fetched (env.pvesh "vm") env.unmarshalVM) R)) := by
  simp only [cycle, fetchAndUpdateStorage_registry, fetchAndUpdateNode_registry,
    fetchAndUpdateVM_registry]

/-- C9: the registry after one cycle is the result of applying the
virtual-machine, node and storage publishers in that order, each one applied when
its fetch succeeded and skipped when it failed.  When the node command fails and
the storage fetch succeeds, the failure is logged and the three storage gauges of
every fetched storage record that is the last one deriving its label tuple are
set in that cycle. -/
theorem cycle_runs_every_publisher (env : Env) (R : Registry) :
    (cycle env R).2 =
      publishFetched storageWrites (fetched (env.pvesh "storage") env.unmarshalSTORAGE)
        (publishFetched nodeWrites (fetched (env.pvesh "node") env.unmarshalNODE)
          (publishFetched vmWrites (fetched (env.pvesh "vm") env.unmarshalVM) R)) ∧
    (∀ (e : String) (out : Bytes) (storages : List STORAGE),
      env.pvesh "node" = .error e → env.pvesh "storage" = .ok out →
      env.unmarshalSTORAGE out = .ok storages →
      "Error fetching Node metrics: " ++ ("error executing pvesh command: " ++ e)
        ∈ (cycle env R).1 ∧
      ∀ s, IsLastFor storageLabelValues storages s →
        (cycle env R).2 (.pveStorageDisk, storageLabelValues s) = some (float64 s.Disk) ∧
        (cycle env R).2 (.pveStorageMaxDisk, storageLabelValues s)
          = some (float64 s.MaxDisk) ∧
        (cycle env R).2 (.pveStorageStatus, storageLabelValues s)
          = some (if s.Status = "available" then 1 else 0)) := by
  refine ⟨cycle_registry env R, ?_⟩
  intro e out storages hnode hst hdec
  refine ⟨?_, ?_⟩
  · simp [cycle, fetchAndUpdateNodepveResourceMetrics, hnode, logError]
  · intro s hs
    have hf : fetched (env.pvesh "storage") env.unmarshalSTORAGE = some storages := by
      simp [fetched, hst, hdec]
    rw [cycle_registry, hf]
    simp only [publishFetched]
    have key : ∀ (R₁ : Registry) (vec : Series) (v : Float64),
        (∀ R₀ : Registry, applyWrites (storageWrites s) R₀ (vec, storageLabelValues s) = some v) →
        publish storageWrites storages R₁ (vec, storageLabelValues s) = some v := by
      intro R₁ vec v hv
      obtain ⟨R₀, h⟩ := publish_last storageWrites storageLabelValues storageWrites_labels
        storages s hs R₁ vec
      rw [h, hv]
    refine ⟨key _ _ _ (fun R₀ => ?_), key _ _ _ (fun R₀ => ?_), key _ _ _ (fun R₀ => ?_)⟩
    · simp [storageWrites, applyWrites, Registry.set]
    · simp [storageWrites, applyWrites, Registry.set]
    · simp [storageWrites, applyWrites, Registry.set, storageStatusValue, float64_statusValue]

/-- C9 at a cycle whose node command fails: the failure is logged and the storage
gauges of the fetched storage record are set. -/
theorem cycle_runs_every_publisher_witness :
    envNodeDown.pvesh "node" = .error "exit status 255" ∧
    envNodeDown.pvesh "storage" = .ok [] ∧
    envNodeDown.unmarshalSTORAGE [] = .ok [storageLocal] ∧
    IsLastFor storageLabelValues [storageLocal] storageLocal ∧
    (cycle envNodeDown Registry.empty).2 (.pveStorageDisk, storageLabelValues storageLocal)
      = some (float64 storageLocal.Disk) :=
  ⟨rfl, rfl, rfl, ⟨[], [], rfl, by simp⟩,
    (((cycle_runs_every_publisher envNodeDown Registry.empty).2 "exit status 255" []
      [storageLocal] rfl rfl rfl).2 storageLocal ⟨[], [], rfl, by simp⟩).1⟩

/-! ## No deletion, no write outside the input -/

/-- C10: for each of the three publishers, every series present before publishing
a record list is present afterwards, and every key whose label tuple no record of
the list derives keeps its value. -/
theorem publish_keeps_other_series (R : Registry) (k : Key) (vms : List VM)
    (nodes : List NODE) (storages : List STORAGE) :
    ((R k ≠ none → publish vmWrites vms R k ≠ none) ∧
      ((∀ x ∈ vms, vmLabelValues x ≠ k.2) → publish vmWrites vms R k = R k)) ∧
    ((R k ≠ none → publish nodeWrites nodes R k ≠ none) ∧
      ((∀ x ∈ nodes, nodeLabelValues x ≠ k.2) → publish nodeWrites nodes R k = R k)) ∧
    ((R k ≠ none → publish storageWrites storages R k ≠ none) ∧
      ((∀ x ∈ storages, storageLabelValues x ≠ k.2) →
        publish storageWrites storages R k = R k)) :=
  ⟨⟨publish_ne_none _ _ _ _, publish_frame _ _ vmWrites_labels _ _ _⟩,
    ⟨publish_ne_none _ _ _ _, publish_frame _ _ nodeWrites_labels _ _ _⟩,
    ⟨publish_ne_none _ _ _ _, publish_frame _ _ storageWrites_labels _ _ _⟩⟩

/-- C10 at a registry holding an earlier cpu value of vmid 100, after publishing
a list that only contains vmid 101: the series is still there with its value. -/
theorem publish_keeps_other_series_witness :
    registryOld (.pveResourceCpu, vmLabelValues vm100) ≠ none ∧
    (∀ x ∈ [vm101], vmLabelValues x ≠ vmLabelValues vm100) ∧
    publish vmWrites [vm101] registryOld (.pveResourceCpu, vmLabelValues vm100) ≠ none ∧
    publish vmWrites [vm101] registryOld (.pveResourceCpu, vmLabelValues vm100)
      = registryOld (.pveResourceCpu, vmLabelValues vm100) :=
  ⟨by simp [registryOld, Registry.set],
    by simp only [List.mem_singleton, forall_eq]; decide,
    (publish_keeps_other_series registryOld (.pveResourceCpu, vmLabelValues vm100) [vm101]
      [] []).1.1 (by simp [registryOld, Registry.set]),
    (publish_keeps_other_series registryOld (.pveResourceCpu, vmLabelValues vm100) [vm101]
      [] []).1.2 (by simp only [List.mem_singleton, forall_eq]; decide)⟩

end ProxmoxExporter
